import Mathlib

/-!
# Verification of the ipamir-rs wrapper (src/lib.rs)

A shallow embedding of the Rust FFI wrapper around the IPAMIR incremental
MaxSAT C interface, together with proofs about its observable behaviour.

The only observable effect of the wrapper is the sequence of calls it issues
to the native engine through the extern block, plus the Rust value it
returns (or a panic).  We therefore embed each wrapper function as a pure
Lean function from its inputs — including the engine responses, which the
wrapper cannot influence (the status code returned by ipamir_solve, the
byte buffer returned by ipamir_signature, the pointer returned by
ipamir_init) — to the list of engine calls it issues (its *trace*) and the
value it returns.  Panics (from panic, assert, unwrap) are embedded as
`Except.error` carrying the panic message.
-/

namespace Ipamir

/-- An opaque native pointer value (a C void pointer). `0` models the null
pointer. -/
abbrev Ptr := Nat

/-- One call through the extern boundary of src/lib.rs, with the arguments
the wrapper passes.  For `ipamir_set_terminate`, `statePresent` records
whether the state argument is non-null (the address of the stack-allocated
CallbackUserData) and `cbPresent` whether the callback argument is a
`Some` callback rather than `None`. -/
inductive EngineCall where
  | signatureCall
  | init
  | release (solver : Ptr)
  | addHard (solver : Ptr) (litOrZero : Int)
  | addSoftLit (solver : Ptr) (lit : Int) (weight : Nat)
  | assumeLit (solver : Ptr) (lit : Int)
  | solveCall (solver : Ptr)
  | valObj (solver : Ptr)
  | valLit (solver : Ptr) (lit : Int)
  | setTerminate (solver : Ptr) (statePresent : Bool) (cbPresent : Bool)
  deriving DecidableEq, Repr

/-- Tests whether an engine call is a `ipamir_set_terminate` call. -/
def EngineCall.isSetTerminate : EngineCall → Bool
  | .setTerminate _ _ _ => true
  | _ => false

/-- Tests whether an engine call is a `ipamir_release` call. -/
def EngineCall.isRelease : EngineCall → Bool
  | .release _ => true
  | _ => false

/-- Tests whether an engine call is a `ipamir_add_hard` call on the given
solver pointer. -/
def EngineCall.isAddHardTo (p : Ptr) : EngineCall → Bool
  | .addHard q _ => q == p
  | _ => false

/-- Embedding of the wrapper struct IPAMIR, which holds the raw pointer
(src/lib.rs:37-39). -/
structure IPAMIR where
  ptr : Ptr
  deriving DecidableEq, Repr

/-- Records how a Rust value relates to the memory it denotes: a borrowed
reference into a buffer owned by someone else, or an owned copy. -/
inductive Ownership where
  | borrowed
  | owned
  deriving DecidableEq, Repr

/-- Records the kind of reference a Rust field holds. -/
inductive BorrowKind where
  | shared
  | mutExclusive
  deriving DecidableEq, Repr

/-- Embedding of the view struct Solution (src/lib.rs:26-28), whose single
field is a mutable reference to the IPAMIR handle.  The field stores the
pointer of the borrowed handle; the *kind* of the borrow is recorded
separately by `Solution.borrowKind`. -/
structure Solution where
  ipamir : Ptr
  deriving DecidableEq, Repr

/-- The borrow kind of the field `ipamir` of Solution (src/lib.rs:27): the
field type is a `&mut` reference to IPAMIR, i.e. an exclusive mutable
borrow, not a shared read-only one. -/
def Solution.borrowKind : BorrowKind := .mutExclusive

/-- Embedding of the enum MaxSatResult (src/lib.rs:30-35). -/
inductive MaxSatResult where
  | Timeout (sol : Option Solution)
  | Optimal (sol : Solution)
  | Unsat
  | Error
  deriving DecidableEq, Repr

/-- A value of type `Except String A` models a Rust computation that either
returns normally or panics (the string is the panic message).  `isPanic`
tests for the panic outcome. -/
def isPanic {A : Type} : Except String A → Bool
  | .error _ => true
  | .ok _ => false

/-- Embedding of `IPAMIR::new` (src/lib.rs:42-46), as a function of the
pointer that `ipamir_init()` returns: the wrapper asserts that the pointer
is non-null (panicking otherwise) and wraps it. -/
def IPAMIR.new (ptr : Ptr) : Except String IPAMIR :=
  if ptr = 0 then .error ("assertion failed: ptr != null()")
  else .ok { ptr := ptr }

/-- The trace of engine calls issued by `IPAMIR::new`: exactly one
`ipamir_init` call. -/
def IPAMIR.newTrace : List EngineCall := [.init]

/-- Embedding of `IPAMIR::add_soft_lit` (src/lib.rs:55-57): its trace is one
`ipamir_add_soft_lit` call. -/
def IPAMIR.add_soft_lit (self : IPAMIR) (lit : Int) (weight : Nat) :
    List EngineCall :=
  [.addSoftLit self.ptr lit weight]

/-- Embedding of `IPAMIR::add_clause` (src/lib.rs:59-64): the for loop
forwards each literal of the iterator to `ipamir_add_hard`, then one final
call forwards `0`. -/
def IPAMIR.add_clause (self : IPAMIR) (lits : List Int) : List EngineCall :=
  lits.map (fun lit => .addHard self.ptr lit) ++ [.addHard self.ptr 0]

/-- The outcome of one `IPAMIR::solve` call: the trace of engine calls it
issued and the value it returned (or the panic it raised). -/
structure SolveRun where
  trace : List EngineCall
  result : Except String MaxSatResult
  deriving Repr

/-- Embedding of `IPAMIR::solve` (src/lib.rs:66-126), as a function of the
timeout argument, the assumption sequence, and the status code the engine
returns from `ipamir_solve`.  Durations are modelled as natural numbers
(the wrapper never inspects the duration itself; only the callback, invoked
by the engine, compares it with the elapsed time — see `solveCb`).

Line by line:
* lines 71-73: each assumption literal is forwarded to `ipamir_assume`;
* lines 79-105: iff a timeout was supplied, `userdata` is set to a `Some`
  value and `ipamir_set_terminate` is called with the address of the user
  data and the callback, registering it;
* line 107: the blocking `ipamir_solve` call;
* lines 109-111: iff `userdata` is a `Some` value (i.e. iff a timeout was
  supplied), `ipamir_set_terminate` is called with null state and no
  callback, clearing the registration;
* lines 113-125: the status code is mapped to a MaxSatResult, panicking
  on any code outside the recognized set. -/
def IPAMIR.solve (self : IPAMIR) (timeout : Option Nat)
    (assumptions : List Int) (code : Int) : SolveRun :=
  let assumeCalls := assumptions.map (fun lit => EngineCall.assumeLit self.ptr lit)
  let registerCalls : List EngineCall :=
    match timeout with
    | some _ => [.setTerminate self.ptr true true]
    | none => []
  let clearCalls : List EngineCall :=
    match timeout with
    | some _ => [.setTerminate self.ptr false false]
    | none => []
  let result : Except String MaxSatResult :=
    if code = 0 then .ok (.Timeout none)
    else if code = 10 then .ok (.Timeout (some { ipamir := self.ptr }))
    else if code = 20 then .ok .Unsat
    else if code = 30 then .ok (.Optimal { ipamir := self.ptr })
    else if code = 40 then .ok .Error
    else .error ("unrecogized return code from ipamir")
  { trace := assumeCalls ++ registerCalls ++ [.solveCall self.ptr] ++ clearCalls
    result := result }

/-- Embedding of the cooperative-cancellation callback cb (src/lib.rs:87-96),
as a function of the elapsed time and the timeout it reads from the user
data: it returns 1 (stop) once the elapsed time exceeds the timeout, else 0
(continue). -/
def solveCb (elapsed timeout : Nat) : Int :=
  if elapsed > timeout then 1 else 0

/-- Embedding of the Drop implementation for IPAMIR (src/lib.rs:129-133):
dropping the handle issues exactly one `ipamir_release` call. -/
def IPAMIR.dropTrace (self : IPAMIR) : List EngineCall := [.release self.ptr]

/-- Embedding of `Solution::get_objective_value` (src/lib.rs:136-138): its
trace is one `ipamir_val_obj` call on the pointer of the borrowed handle. -/
def Solution.get_objective_value (self : Solution) : List EngineCall :=
  [.valObj self.ipamir]

/-- Embedding of `Solution::get_literal_value` (src/lib.rs:140-142): its
trace is one `ipamir_val_lit` call on the pointer of the borrowed handle. -/
def Solution.get_literal_value (self : Solution) (lit : Int) : List EngineCall :=
  [.valLit self.ipamir lit]

/-! ## The signature function

`IPAMIR::signature` (src/lib.rs:48-53) calls `ipamir_signature`, reads the
returned pointer as a NUL-terminated C string (`CStr::from_ptr` borrows the
bytes up to the first NUL), converts it to a string slice with `to_str`
(which validates UTF-8 and returns an error on invalid bytes, borrowing the
same memory), unwraps (panicking on invalid UTF-8), and returns the slice.
No owned copy is ever made: the returned value still references the native
buffer.  We embed the native buffer as a list of bytes and the returned
Rust string value as a `RustStr`, which records both the content bytes and
whether the value is a borrow into the native buffer or an owned copy. -/

/-- A Rust string value: its UTF-8 content bytes together with whether it
borrows the buffer it came from or owns a copy. -/
structure RustStr where
  bytes : List UInt8
  ownership : Ownership
  deriving DecidableEq, Repr

/-- Tests whether a byte is a UTF-8 continuation byte (0x80 to 0xBF). -/
def utf8Cont (b : UInt8) : Bool := 0x80 ≤ b && b ≤ 0xBF

/-- UTF-8 validity of a byte sequence, as checked by the Rust standard
library function `str::from_utf8` (RFC 3629: rejecting overlong encodings,
surrogate code points and values above U+10FFFF), which `CStr::to_str`
uses. -/
def validUtf8 : List UInt8 → Bool
  | [] => true
  | b :: rest =>
    if b ≤ 0x7F then validUtf8 rest
    else if 0xC2 ≤ b && b ≤ 0xDF then
      match rest with
      | c1 :: rest1 => utf8Cont c1 && validUtf8 rest1
      | [] => false
    else if b == 0xE0 then
      match rest with
      | c1 :: c2 :: rest2 =>
        (0xA0 ≤ c1 && c1 ≤ 0xBF) && utf8Cont c2 && validUtf8 rest2
      | _ => false
    else if (0xE1 ≤ b && b ≤ 0xEC) || b == 0xEE || b == 0xEF then
      match rest with
      | c1 :: c2 :: rest2 => utf8Cont c1 && utf8Cont c2 && validUtf8 rest2
      | _ => false
    else if b == 0xED then
      match rest with
      | c1 :: c2 :: rest2 =>
        (0x80 ≤ c1 && c1 ≤ 0x9F) && utf8Cont c2 && validUtf8 rest2
      | _ => false
    else if b == 0xF0 then
      match rest with
      | c1 :: c2 :: c3 :: rest3 =>
        (0x90 ≤ c1 && c1 ≤ 0xBF) && utf8Cont c2 && utf8Cont c3 &&
          validUtf8 rest3
      | _ => false
    else if 0xF1 ≤ b && b ≤ 0xF3 then
      match rest with
      | c1 :: c2 :: c3 :: rest3 =>
        utf8Cont c1 && utf8Cont c2 && utf8Cont c3 && validUtf8 rest3
      | _ => false
    else if b == 0xF4 then
      match rest with
      | c1 :: c2 :: c3 :: rest3 =>
        (0x80 ≤ c1 && c1 ≤ 0x8F) && utf8Cont c2 && utf8Cont c3 &&
          validUtf8 rest3
      | _ => false
    else false

/-- Embedding of `IPAMIR::signature` (src/lib.rs:48-53), as a function of
the NUL-terminated byte buffer the engine returns from `ipamir_signature`:
the bytes up to the first NUL are validated as UTF-8; on success the
resulting string slice — still a borrow of the native buffer, no copy is
made — is returned, and on failure the unwrap panics. -/
def IPAMIR.signature (buf : List UInt8) : Except String RustStr :=
  let cstrBytes := buf.takeWhile (fun b => b != 0)
  if validUtf8 cstrBytes then
    .ok { bytes := cstrBytes, ownership := .borrowed }
  else
    .error ("called Result::unwrap on an Err value: Utf8Error")

/-! ## Handle lifecycle

A complete use of one IPAMIR handle: `IPAMIR::new` creates it, an arbitrary
sequence of public operations is performed on it, and the Drop
implementation destroys it.  Rust guarantees the destructor of an owned
IPAMIR value runs exactly once, at the end of its lifetime, after every
other use of the value; the model therefore places `dropTrace` once, at the
end of the trace. -/

/-- One public operation on a live handle, with the inputs that determine
its trace (for solve, the status code the engine answers; the value-query
operations model calls made through a Solution borrowing this handle). -/
inductive HandleOp where
  | signatureOp
  | addSoftLitOp (lit : Int) (weight : Nat)
  | addClauseOp (lits : List Int)
  | solveOp (timeout : Option Nat) (assumptions : List Int) (code : Int)
  | valObjOp
  | valLitOp (lit : Int)
  deriving Repr

/-- The engine calls issued by one public operation on the handle. -/
def HandleOp.calls (self : IPAMIR) : HandleOp → List EngineCall
  | .signatureOp => [.signatureCall]
  | .addSoftLitOp lit weight => self.add_soft_lit lit weight
  | .addClauseOp lits => self.add_clause lits
  | .solveOp timeout assumptions code => (self.solve timeout assumptions code).trace
  | .valObjOp => Solution.get_objective_value { ipamir := self.ptr }
  | .valLitOp lit => Solution.get_literal_value { ipamir := self.ptr } lit

/-- The full engine-call trace of one handle from creation to destruction:
the `ipamir_init` call, the calls of each operation in order, then the
`ipamir_release` call issued by the Drop implementation. -/
def IPAMIR.lifecycle (self : IPAMIR) (ops : List HandleOp) : List EngineCall :=
  IPAMIR.newTrace ++ ops.flatMap (HandleOp.calls self) ++ self.dropTrace

/-! ## The borrow discipline of Solution

The Rust type signatures impose a static discipline on how a Solution and
its handle may be used.  `solve` takes the handle by `&mut` and returns a
MaxSatResult whose Solution payload holds that `&mut` borrow for its whole
lifetime; the two query methods take the Solution by `&self`; `add_clause`,
`add_soft_lit` and `solve` take the handle by `&mut self`.  We embed this
discipline as a checker over event sequences: a mutable borrow of the
handle by a live Solution excludes every other use of the handle, a query
requires the queried Solution to be live, and dropping the Solution ends
the borrow.  An event sequence is accepted exactly when the Rust borrow
checker accepts the corresponding program. -/

/-- One event in the use of a handle and the Solutions derived from it.
Solutions are identified by a tag chosen at creation; distinct Solution
values carry distinct tags. -/
inductive SessionEvent where
  | mutateHandle
  | mkSolution (s : Nat)
  | querySolution (s : Nat)
  | dropSolution (s : Nat)
  deriving DecidableEq, Repr

/-- The borrow checker for the Solution discipline.  The state is the tag of
the Solution currently holding the mutable borrow of the handle, if any.
Creating a Solution (the product of a solve call) takes the borrow; while
it is held, mutating the handle or creating another Solution is rejected;
querying requires the borrow to be held by the queried Solution; dropping
the Solution releases the borrow. -/
def borrowCheck : Option Nat → List SessionEvent → Bool
  | _, [] => true
  | none, .mutateHandle :: rest => borrowCheck none rest
  | none, .mkSolution s :: rest => borrowCheck (some s) rest
  | none, .querySolution _ :: _ => false
  | none, .dropSolution _ :: _ => false
  | some _, .mutateHandle :: _ => false
  | some _, .mkSolution _ :: _ => false
  | some s, .querySolution t :: rest => s == t && borrowCheck (some s) rest
  | some s, .dropSolution t :: rest => s == t && borrowCheck none rest

/-- The tags of the Solutions created in an event sequence, in creation
order. -/
def solutionIds (evs : List SessionEvent) : List Nat :=
  evs.filterMap fun e =>
    match e with
    | .mkSolution s => some s
    | _ => none

end Ipamir

namespace Ipamir

/-! ## Claims -/

/-- C9: Handle creation (`IPAMIR::new`) either returns a Handle wrapping the
non-null native reference produced by `ipamir_init`, or panics (a fatal
failure, not a recoverable Result value) when `ipamir_init` returns null. -/
theorem handle_new_nonnull_or_panic (ptr : Ptr) :
    (ptr ≠ 0 → IPAMIR.new ptr = .ok { ptr := ptr })
    ∧ (ptr = 0 → isPanic (IPAMIR.new ptr) = true) := by
  constructor
  · intro h
    simp [IPAMIR.new, h]
  · intro h
    simp [IPAMIR.new, h, isPanic]

/-- Witness for C9 at the concrete pointers 7 (non-null) and 0 (null). -/
theorem handle_new_nonnull_or_panic_witness :
    IPAMIR.new 7 = .ok { ptr := 7 } ∧ isPanic (IPAMIR.new 0) = true :=
  ⟨(handle_new_nonnull_or_panic 7).1 (by decide),
   (handle_new_nonnull_or_panic 0).2 rfl⟩

/-- C3: solve maps every engine status code to exactly one Result variant
according to the fixed table — 0 to Timeout without a model, 10 to Timeout
with a Solution view, 20 to Unsat, 30 to Optimal with a Solution view, 40
to Error — and any other status code panics, never silently coercing into
one of the five variants. -/
theorem solve_status_table (p : Nat) (t : Option Nat) (asms : List Int)
    (code : Int) :
    ((IPAMIR.mk p).solve t asms 0).result = .ok (.Timeout none)
    ∧ ((IPAMIR.mk p).solve t asms 10).result
        = .ok (.Timeout (some { ipamir := p }))
    ∧ ((IPAMIR.mk p).solve t asms 20).result = .ok .Unsat
    ∧ ((IPAMIR.mk p).solve t asms 30).result = .ok (.Optimal { ipamir := p })
    ∧ ((IPAMIR.mk p).solve t asms 40).result = .ok .Error
    ∧ (code ∉ ([0, 10, 20, 30, 40] : List Int) →
        ((IPAMIR.mk p).solve t asms code).result =
          .error ("unrecogized return code from ipamir")) := by
  refine ⟨by simp [IPAMIR.solve], by simp [IPAMIR.solve], by simp [IPAMIR.solve],
    by simp [IPAMIR.solve], by simp [IPAMIR.solve], ?_⟩
  intro h
  simp only [List.mem_cons, List.not_mem_nil, not_or, or_false] at h
  obtain ⟨h0, h10, h20, h30, h40⟩ := h
  simp [IPAMIR.solve, h0, h10, h20, h30, h40]

/-- Witness for C3 at the unrecognized status code 50. -/
theorem solve_status_table_witness :
    ((IPAMIR.mk 1).solve none [] 50).result =
      .error ("unrecogized return code from ipamir") :=
  (solve_status_table 1 none [] 50).2.2.2.2.2 (by decide)

/-- Counterexample for C2 as stated: on the engine buffer [104, 105, 0]
(the C string for hi), `IPAMIR::signature` returns a *borrowed* reference
into the native buffer, not an owned copy — the claim says the value
returned does not reference the native buffer. -/
theorem signature_counterexample :
    (IPAMIR.signature [104, 105, 0]).toOption.map RustStr.ownership
      = some .borrowed
    ∧ Ownership.borrowed ≠ Ownership.owned := by
  constructor
  · rfl
  · decide

/-- C2 (amended): every successful return value of `IPAMIR::signature` is a
borrow of the native buffer (no owned copy is made); its content is the
buffer bytes up to the first NUL, validated as UTF-8. -/
theorem signature_borrows_native_buffer (buf : List UInt8) (r : RustStr)
    (h : IPAMIR.signature buf = .ok r) :
    r.ownership = .borrowed
    ∧ r.bytes = buf.takeWhile (fun b => b != 0) := by
  rw [IPAMIR.signature] at h
  by_cases hv : validUtf8 (buf.takeWhile (fun b => b != 0))
  · simp only [hv, if_true] at h
    cases h
    exact ⟨rfl, rfl⟩
  · simp only [hv, if_false] at h
    cases h

/-- Witness for C2 (amended) at the concrete buffer [104, 105, 0]. -/
theorem signature_borrows_native_buffer_witness :
    ({ bytes := [104, 105], ownership := .borrowed } : RustStr).ownership
        = .borrowed
    ∧ ({ bytes := [104, 105], ownership := .borrowed } : RustStr).bytes
        = List.takeWhile (fun b => b != 0) [104, 105, 0] :=
  signature_borrows_native_buffer [104, 105, 0]
    { bytes := [104, 105], ownership := .borrowed } rfl

/-- C10: `IPAMIR::signature` panics (the unwrap of the UTF-8 conversion)
whenever the engine signature text is not valid UTF-8, rather than
returning an error value; when the text is valid UTF-8 it is returned
unchanged. -/
theorem signature_utf8_panic_or_id (buf : List UInt8) :
    (validUtf8 (buf.takeWhile (fun b => b != 0)) = false →
      isPanic (IPAMIR.signature buf) = true)
    ∧ (validUtf8 (buf.takeWhile (fun b => b != 0)) = true →
      IPAMIR.signature buf =
        .ok { bytes := buf.takeWhile (fun b => b != 0),
              ownership := .borrowed }) := by
  constructor
  · intro h
    simp [IPAMIR.signature, h, isPanic]
  · intro h
    simp [IPAMIR.signature, h]

/-- Witness for C10 at the concrete buffers [255, 0] (invalid UTF-8, byte
0xFF can begin no UTF-8 sequence) and [104, 105, 0] (valid UTF-8). -/
theorem signature_utf8_panic_or_id_witness :
    isPanic (IPAMIR.signature [255, 0]) = true
    ∧ IPAMIR.signature [104, 105, 0] =
        .ok { bytes := List.takeWhile (fun b => b != 0) [104, 105, 0],
              ownership := .borrowed } :=
  ⟨(signature_utf8_panic_or_id [255, 0]).1 (by decide),
   (signature_utf8_panic_or_id [104, 105, 0]).2 (by decide)⟩

/-- C5: for every solve call with no timeout supplied, `ipamir_set_terminate`
is never invoked during that call — in particular no cancellation callback
is ever registered. -/
theorem solve_no_timeout_never_registers (p : Nat) (asms : List Int)
    (code : Int) :
    ((IPAMIR.mk p).solve none asms code).trace.countP
      EngineCall.isSetTerminate = 0 := by
  simp [IPAMIR.solve, List.countP_append, List.countP_map, Function.comp,
    EngineCall.isSetTerminate, List.countP_eq_zero]

/-- Counterexample for C1 as stated: a solve call with no timeout (status
30, no assumptions) returns normally, but its trace contains no
`ipamir_set_terminate` call at all — the callback is not cleared or
deregistered via the set_terminate entry point, because none was ever
registered. -/
theorem solve_clear_counterexample :
    ((IPAMIR.mk 1).solve none [] 30).trace = [.solveCall 1]
    ∧ ((IPAMIR.mk 1).solve none [] 30).trace.countP
        EngineCall.isSetTerminate = 0
    ∧ isPanic ((IPAMIR.mk 1).solve none [] 30).result = false := by
  refine ⟨rfl, rfl, rfl⟩

end Ipamir

namespace Ipamir

/-- Helper: the explicit shape of the engine-call trace of one solve call,
with the two `ipamir_set_terminate` calls present exactly when a timeout
was supplied. -/
theorem solve_trace_shape (p : Nat) (t : Option Nat) (asms : List Int)
    (code : Int) :
    ((IPAMIR.mk p).solve t asms code).trace
      = asms.map (fun lit => EngineCall.assumeLit p lit)
        ++ ((if t.isSome then [EngineCall.setTerminate p true true] else [])
        ++ ([EngineCall.solveCall p]
        ++ (if t.isSome then [EngineCall.setTerminate p false false]
            else []))) := by
  cases t <;> simp [IPAMIR.solve]

/-- C6: `IPAMIR::add_clause` forwards each literal of the sequence to
`ipamir_add_hard` in the order given, then forwards exactly one terminating
zero, with no other effect: its trace has one call per literal plus one,
the i-th call forwards the i-th literal, the last call forwards 0, and
every call in the trace is an `ipamir_add_hard` call on this handle. -/
theorem add_clause_forwards_in_order (p : Nat) (lits : List Int) :
    ((IPAMIR.mk p).add_clause lits).length = lits.length + 1
    ∧ (∀ i (h : i < lits.length),
        ((IPAMIR.mk p).add_clause lits)[i]? = some (.addHard p lits[i]))
    ∧ ((IPAMIR.mk p).add_clause lits).getLast? = some (.addHard p 0)
    ∧ (∀ c ∈ (IPAMIR.mk p).add_clause lits, c.isAddHardTo p = true) := by
  refine ⟨by simp [IPAMIR.add_clause], ?_, ?_, ?_⟩
  · intro i h
    rw [IPAMIR.add_clause, List.getElem?_append_left (by simpa using h),
      List.getElem?_map, List.getElem?_eq_getElem h]
    rfl
  · rw [IPAMIR.add_clause]
    exact List.getLast?_concat _
  · intro c hc
    rw [IPAMIR.add_clause] at hc
    rcases List.mem_append.mp hc with hm | hm
    · obtain ⟨l, _, rfl⟩ := List.mem_map.mp hm
      simp [EngineCall.isAddHardTo]
    · rcases List.mem_singleton.mp hm with rfl
      simp [EngineCall.isAddHardTo]

/-- Witness for C6 at the concrete clause [3, -4] on handle pointer 1. -/
theorem add_clause_forwards_in_order_witness :
    ((IPAMIR.mk 1).add_clause [3, -4])[1]? = some (.addHard 1 (-4)) :=
  (add_clause_forwards_in_order 1 [3, -4]).2.1 1 (by decide)

/-- C7: in every solve call, each literal of the supplied assumption
sequence is forwarded to `ipamir_assume` in the order given — the first
`asms.length` engine calls of the trace are exactly the assume calls, in
order — and every `ipamir_solve` call in the trace occurs only after all of
them. -/
theorem solve_assumptions_before_solve (p : Nat) (t : Option Nat)
    (asms : List Int) (code : Int) :
    ((IPAMIR.mk p).solve t asms code).trace.take asms.length
      = asms.map (EngineCall.assumeLit p)
    ∧ (∀ j, (((IPAMIR.mk p).solve t asms code).trace)[j]?
          = some (.solveCall p) →
        asms.length ≤ j) := by
  constructor
  · rw [solve_trace_shape, List.take_left' (by simp)]
  · intro j hj
    by_contra hlt
    push_neg at hlt
    rw [solve_trace_shape, List.getElem?_append_left (by simpa using hlt),
      List.getElem?_map, List.getElem?_eq_getElem hlt] at hj
    simp at hj

/-- Witness for C7 at the assumptions [5, -3], status 30, no timeout. -/
theorem solve_assumptions_before_solve_witness :
    ((IPAMIR.mk 1).solve none [5, -3] 30).trace.take
        (List.length [(5 : Int), -3])
      = List.map (EngineCall.assumeLit 1) [5, -3]
    ∧ List.length [(5 : Int), -3] ≤ 2 :=
  ⟨(solve_assumptions_before_solve 1 none [5, -3] 30).1,
   (solve_assumptions_before_solve 1 none [5, -3] 30).2 2 (by decide)⟩

/-- C1 (amended): after every solve call in which a timeout was supplied,
whatever the status code, the last engine call of the trace — hence after
the blocking `ipamir_solve` call, before solve returns — is the
`ipamir_set_terminate` call with null state and no callback that clears the
registration; when no timeout is supplied, `ipamir_set_terminate` is never
invoked during the call, so no callback is ever registered and none needs
clearing. -/
theorem solve_clear_amended (p d : Nat) (asms : List Int) (code : Int) :
    ((IPAMIR.mk p).solve (some d) asms code).trace.getLast?
        = some (.setTerminate p false false)
    ∧ EngineCall.solveCall p ∈ ((IPAMIR.mk p).solve (some d) asms code).trace
    ∧ ((IPAMIR.mk p).solve none asms code).trace.countP
        EngineCall.isSetTerminate = 0 := by
  refine ⟨?_, ?_, ?_⟩
  · simp [solve_trace_shape]
  · simp [solve_trace_shape]
  · simp [IPAMIR.solve, List.countP_append, List.countP_map, Function.comp,
      EngineCall.isSetTerminate, List.countP_eq_zero]

end Ipamir

namespace Ipamir

/-- Helper: no public operation on a live handle ever issues an
`ipamir_release` call. -/
theorem handleOp_calls_no_release (self : IPAMIR) (op : HandleOp) :
    (HandleOp.calls self op).countP EngineCall.isRelease = 0 := by
  cases op with
  | signatureOp => rfl
  | addSoftLitOp lit weight => rfl
  | addClauseOp lits =>
    simp [HandleOp.calls, IPAMIR.add_clause, List.countP_append,
      List.countP_map, Function.comp, EngineCall.isRelease,
      List.countP_eq_zero]
  | solveOp t asms code =>
    cases t <;>
      simp [HandleOp.calls, IPAMIR.solve, List.countP_append,
        List.countP_map, Function.comp, EngineCall.isRelease,
        List.countP_eq_zero]
  | valObjOp => rfl
  | valLitOp lit => rfl

/-- Helper: the operations performed during the lifetime of a handle issue
no `ipamir_release` call. -/
theorem lifecycle_ops_no_release (self : IPAMIR) (ops : List HandleOp) :
    (ops.flatMap (HandleOp.calls self)).countP EngineCall.isRelease = 0 := by
  induction ops with
  | nil => rfl
  | cons op rest ih =>
    simp only [List.flatMap_cons, List.countP_append, ih,
      handleOp_calls_no_release, Nat.add_zero]

/-- C8: over the full lifecycle of a handle — creation, any sequence of
operations, destruction — the engine sees exactly one `ipamir_release`
call, and it is the very last engine call, so it comes after the last
other engine call routed through the handle and the native reference is
never accessed afterward. -/
theorem release_exactly_once_last (self : IPAMIR) (ops : List HandleOp) :
    (self.lifecycle ops).countP EngineCall.isRelease = 1
    ∧ (self.lifecycle ops).getLast? = some (.release self.ptr) := by
  constructor
  · simp [IPAMIR.lifecycle, IPAMIR.newTrace, IPAMIR.dropTrace,
      List.countP_append, lifecycle_ops_no_release, EngineCall.isRelease,
      List.countP_cons]
  · exact List.getLast?_concat _

end Ipamir

namespace Ipamir

@[simp] theorem solutionIds_nil : solutionIds [] = [] := rfl

@[simp] theorem solutionIds_cons_mutate (rest : List SessionEvent) :
    solutionIds (.mutateHandle :: rest) = solutionIds rest := rfl

@[simp] theorem solutionIds_cons_mk (u : Nat) (rest : List SessionEvent) :
    solutionIds (.mkSolution u :: rest) = u :: solutionIds rest := rfl

@[simp] theorem solutionIds_cons_query (u : Nat) (rest : List SessionEvent) :
    solutionIds (.querySolution u :: rest) = solutionIds rest := rfl

@[simp] theorem solutionIds_cons_drop (u : Nat) (rest : List SessionEvent) :
    solutionIds (.dropSolution u :: rest) = solutionIds rest := rfl

/-- Helper: in an accepted event sequence, a Solution whose tag is never
created in the sequence and does not currently hold the borrow is never
queried (the borrow checker rejects every query on it). -/
theorem borrowCheck_no_query_of_fresh (s : Nat) (evs : List SessionEvent) :
    ∀ st : Option Nat, borrowCheck st evs = true → s ∉ solutionIds evs →
      st ≠ some s → ∀ k : Nat, ¬(evs[k]? = some (.querySolution s)) := by
  induction evs with
  | nil => intro st _ _ _ k h; simp at h
  | cons e rest ih =>
    intro st hchk hfresh hst k h
    cases st with
    | none =>
      cases e with
      | mutateHandle =>
        simp only [borrowCheck] at hchk
        cases k with
        | zero => simp at h
        | succ k2 =>
          exact ih none hchk (by simpa using hfresh) (by simp) k2
            (by simpa using h)
      | mkSolution u =>
        simp only [borrowCheck] at hchk
        have hfr : ¬s = u ∧ s ∉ solutionIds rest := by simpa using hfresh
        have hne : (some u : Option Nat) ≠ some s := by
          intro hh
          exact hfr.1 (Option.some.inj hh).symm
        cases k with
        | zero => simp at h
        | succ k2 =>
          exact ih (some u) hchk hfr.2 hne k2 (by simpa using h)
      | querySolution u => simp [borrowCheck] at hchk
      | dropSolution u => simp [borrowCheck] at hchk
    | some v =>
      cases e with
      | mutateHandle => simp [borrowCheck] at hchk
      | mkSolution u => simp [borrowCheck] at hchk
      | querySolution u =>
        simp only [borrowCheck, Bool.and_eq_true, beq_iff_eq] at hchk
        obtain ⟨hvu, hrest⟩ := hchk
        cases k with
        | zero =>
          have hus : u = s := by simpa using h
          exact hst (by rw [hvu, hus])
        | succ k2 =>
          exact ih (some v) hrest (by simpa using hfresh) hst k2
            (by simpa using h)
      | dropSolution u =>
        simp only [borrowCheck, Bool.and_eq_true, beq_iff_eq] at hchk
        obtain ⟨hvu, hrest⟩ := hchk
        cases k with
        | zero => simp at h
        | succ k2 =>
          exact ih none hrest (by simpa using hfresh) (by simp) k2
            (by simpa using h)

/-- Helper: while a Solution holds the borrow of the handle and its tag is
never created again, no accepted mutation of the handle can be followed by
an accepted query on that Solution. -/
theorem borrowCheck_no_mutate_before_query (s : Nat)
    (evs : List SessionEvent) :
    borrowCheck (some s) evs = true → s ∉ solutionIds evs →
    ∀ j k : Nat, j < k → evs[j]? = some .mutateHandle →
      evs[k]? = some (.querySolution s) → False := by
  induction evs with
  | nil => intro _ _ j k _ hj _; simp at hj
  | cons e rest ih =>
    intro hchk hfresh j k hjk hj hk
    cases e with
    | mutateHandle => simp [borrowCheck] at hchk
    | mkSolution u => simp [borrowCheck] at hchk
    | querySolution u =>
      simp only [borrowCheck, Bool.and_eq_true, beq_iff_eq] at hchk
      obtain ⟨hsu, hrest⟩ := hchk
      cases j with
      | zero => simp at hj
      | succ j2 =>
        cases k with
        | zero => omega
        | succ k2 =>
          exact ih hrest (by simpa using hfresh) j2 k2 (by omega)
            (by simpa using hj) (by simpa using hk)
    | dropSolution u =>
      simp only [borrowCheck, Bool.and_eq_true, beq_iff_eq] at hchk
      obtain ⟨hsu, hrest⟩ := hchk
      cases k with
      | zero => simp at hk
      | succ k2 =>
        exact borrowCheck_no_query_of_fresh s rest none hrest
          (by simpa using hfresh) (by simp) k2 (by simpa using hk)

/-- Helper: in any event sequence the borrow checker accepts, with distinct
Solution tags, no Solution can be queried after a mutation of the handle
that follows its creation. -/
theorem borrowCheck_aux (evs : List SessionEvent) :
    ∀ st : Option Nat, borrowCheck st evs = true →
      (solutionIds evs).Nodup →
      (∀ t, st = some t → t ∉ solutionIds evs) →
      ∀ s i j k : Nat, i < j → j < k →
        evs[i]? = some (.mkSolution s) → evs[j]? = some .mutateHandle →
        evs[k]? = some (.querySolution s) → False := by
  induction evs with
  | nil => intro st _ _ _ s i j k _ _ hi _ _; simp at hi
  | cons e rest ih =>
    intro st hchk hnd hside s i j k hij hjk hi hj hk
    cases st with
    | none =>
      cases e with
      | mutateHandle =>
        simp only [borrowCheck] at hchk
        cases i with
        | zero => simp at hi
        | succ i2 =>
          cases j with
          | zero => omega
          | succ j2 =>
            cases k with
            | zero => omega
            | succ k2 =>
              exact ih none hchk (by simpa using hnd)
                (by intro t ht; simp at ht) s i2 j2 k2 (by omega) (by omega)
                (by simpa using hi) (by simpa using hj) (by simpa using hk)
      | mkSolution u =>
        simp only [borrowCheck] at hchk
        have hnd2 : u ∉ solutionIds rest ∧ (solutionIds rest).Nodup := by
          simpa using hnd
        cases i with
        | zero =>
          have hus : u = s := by simpa using hi
          subst hus
          cases j with
          | zero => omega
          | succ j2 =>
            cases k with
            | zero => omega
            | succ k2 =>
              exact borrowCheck_no_mutate_before_query u rest hchk hnd2.1
                j2 k2 (by omega) (by simpa using hj) (by simpa using hk)
        | succ i2 =>
          cases j with
          | zero => omega
          | succ j2 =>
            cases k with
            | zero => omega
            | succ k2 =>
              exact ih (some u) hchk hnd2.2
                (by intro t ht; exact (Option.some.inj ht) ▸ hnd2.1)
                s i2 j2 k2 (by omega) (by omega) (by simpa using hi)
                (by simpa using hj) (by simpa using hk)
      | querySolution u => simp [borrowCheck] at hchk
      | dropSolution u => simp [borrowCheck] at hchk
    | some v =>
      cases e with
      | mutateHandle => simp [borrowCheck] at hchk
      | mkSolution u => simp [borrowCheck] at hchk
      | querySolution u =>
        simp only [borrowCheck, Bool.and_eq_true, beq_iff_eq] at hchk
        obtain ⟨hvu, hrest⟩ := hchk
        cases i with
        | zero => simp at hi
        | succ i2 =>
          cases j with
          | zero => simp at hj
          | succ j2 =>
            cases k with
            | zero => omega
            | succ k2 =>
              exact ih (some v) hrest (by simpa using hnd)
                (by intro t ht; simpa using hside t ht) s i2 j2 k2 (by omega)
                (by omega) (by simpa using hi) (by simpa using hj)
                (by simpa using hk)
      | dropSolution u =>
        simp only [borrowCheck, Bool.and_eq_true, beq_iff_eq] at hchk
        obtain ⟨hvu, hrest⟩ := hchk
        cases i with
        | zero => simp at hi
        | succ i2 =>
          cases j with
          | zero => simp at hj
          | succ j2 =>
            cases k with
            | zero => omega
            | succ k2 =>
              exact ih none hrest (by simpa using hnd)
                (by intro t ht; simp at ht) s i2 j2 k2 (by omega) (by omega)
                (by simpa using hi) (by simpa using hj) (by simpa using hk)

/-- Counterexample for C4 as stated: the borrow the Solution view holds on
the handle (the field of type mutable reference to IPAMIR, src/lib.rs:27)
is an exclusive mutable borrow, not the non-exclusive read-only borrow the
claim asserts. -/
theorem solution_shared_borrow_counterexample :
    Solution.borrowKind = BorrowKind.mutExclusive
    ∧ Solution.borrowKind ≠ BorrowKind.shared := by decide

/-- C4 (amended): a Solution view holds an *exclusive mutable* borrow of
the Handle for its entire lifetime; under the borrow discipline the Rust
signatures impose — embedded as `borrowCheck` — every accepted event
sequence statically invalidates a Solution before the Handle can be
mutated again: no query on a Solution is accepted after a mutating call on
the same Handle that follows the creation of that Solution. -/
theorem solution_borrow_discipline (evs : List SessionEvent)
    (hchk : borrowCheck none evs = true)
    (hnd : (solutionIds evs).Nodup) :
    Solution.borrowKind = BorrowKind.mutExclusive
    ∧ ∀ s i j k : Nat, i < j → j < k →
        evs[i]? = some (.mkSolution s) → evs[j]? = some .mutateHandle →
        ¬(evs[k]? = some (.querySolution s)) := by
  refine ⟨rfl, ?_⟩
  intro s i j k hij hjk hi hj hk
  exact borrowCheck_aux evs none hchk hnd (by intro t ht; simp at ht)
    s i j k hij hjk hi hj hk

/-- Witness for C4 (amended) at the concrete accepted event sequence
create-drop-mutate: the borrow checker accepts it, and a query on the
dropped Solution after the mutation (position 3) is rejected. -/
theorem solution_borrow_discipline_witness :
    Solution.borrowKind = BorrowKind.mutExclusive
    ∧ ¬(([SessionEvent.mkSolution 0, .dropSolution 0,
          .mutateHandle] : List SessionEvent)[3]?
        = some (.querySolution 0)) :=
  ⟨(solution_borrow_discipline
      [.mkSolution 0, .dropSolution 0, .mutateHandle]
      (by decide) (by decide)).1,
   (solution_borrow_discipline
      [.mkSolution 0, .dropSolution 0, .mutateHandle]
      (by decide) (by decide)).2
     0 0 2 3 (by decide) (by decide) (by decide) (by decide)⟩

end Ipamir
